import Mathlib

/-!
Verification of the object/version lifecycle and storage-consistency engine of
an S3-compatible object store.  The definitions below are a shallow embedding
of the JavaScript source:

* `src/src/storage/FileSystemProvider.js` (physical store: put/get/delete,
  path sanitization, MD5 sidecar metadata),
* `src/src/storage/StorageProvider.js` (the provider the factory actually
  instantiates; its put/get/delete contract is identical to the
  FileSystemProvider one modulo path sanitization),
* `src/unnamed/part_011` (`ObjectService`: upload/download/list/delete/copy,
  ACL and tagging),
* `src/unnamed/part_012` (`BucketService`),
* `src/unnamed/part_008` (`validateBucketName` helper),
* `src/src/iam/iamService.js` and `src/unnamed/part_010` (IAM decision oracle
  and its fail-closed wrapper),
* `src/src/api/controllers/objectController.js` (`copyObject` controller).

Byte payloads are `List Nat`; the MD5 digest is abstracted as a function
parameter `hash : List Nat → String` (the same single function is used by the
put and get paths, which is what the round-trip claims need).  UUIDs are
modelled by a monotone counter `nextId` in the system state.
-/

namespace S3Spec

/-! ## Physical store (FileSystemProvider.js) -/

/-- `sanitizePath` of FileSystemProvider.js: replace the reserved filesystem
characters from the class `[<>:"|?*]` by an underscore. -/
def sanitizeChar (c : Char) : Char :=
  if c = '<' ∨ c = '>' ∨ c = ':' ∨ c = '"' ∨ c = '|' ∨ c = '?' ∨ c = '*' then '_' else c

/-- `sanitizePath` of FileSystemProvider.js: second `.replace`, rewriting every
(non-overlapping, left-to-right) occurrence of `..` to `_`. -/
def collapseDotDot : List Char → List Char
  | '.' :: '.' :: rest => '_' :: collapseDotDot rest
  | c :: rest => c :: collapseDotDot rest
  | [] => []

/-- `FileSystemProvider.sanitizePath`:
`pathStr.replace` of the reserved class by underscores, then `..` → `_`. -/
def sanitizePath (s : String) : String :=
  ⟨collapseDotDot (s.data.map sanitizeChar)⟩

/-- Sidecar metadata written beside each blob (the `.meta` file; see
`FileSystemProvider.putObject`). -/
structure BlobMeta where
  contentType : String
  userMetadata : List (String × String)
  size : Nat
  etag : String
  deriving Repr, DecidableEq

/-- A stored physical object: payload bytes plus sidecar metadata. -/
structure Blob where
  bytes : List Nat
  meta : BlobMeta
  deriving Repr, DecidableEq

/-- The filesystem under the storage root, as a finite map from the
(sanitized bucket, sanitized key) path to the blob stored there. -/
abbrev Store := List ((String × String) × Blob)

/-- Path resolution of `getObjectPath`: both components sanitized. -/
def storeAddr (bucketName objectKey : String) : String × String :=
  (sanitizePath bucketName, sanitizePath objectKey)

def lookupBlob (store : Store) (addr : String × String) : Option Blob :=
  (store.find? (fun e => e.1 == addr)).map (fun e => e.2)

/-- `fs.writeFile` semantics: overwrite whatever was at the path. -/
def putBlob (store : Store) (addr : String × String) (b : Blob) : Store :=
  (addr, b) :: store.filter (fun e => !(e.1 == addr))

/-- `fs.unlink` of blob and sidecar. -/
def eraseBlob (store : Store) (addr : String × String) : Store :=
  store.filter (fun e => !(e.1 == addr))

structure PutResult where
  etag : String
  size : Nat
  deriving Repr, DecidableEq

/-- `FileSystemProvider.putObject` for a `Buffer` payload: write the bytes at
the sanitized path, compute `size = data.length` and `etag = md5(data)`, and
write the sidecar `.meta` file holding `{contentType, userMetadata, size,
etag}` (the `contentType` defaulting is done again inside `fullMetadata`). -/
def fsPutObject (hash : List Nat → String) (store : Store)
    (bucketName objectKey : String) (data : List Nat)
    (contentType : String) (userMetadata : List (String × String)) :
    Store × PutResult :=
  let addr := storeAddr bucketName objectKey
  let etag := hash data
  let meta : BlobMeta :=
    { contentType := contentType, userMetadata := userMetadata,
      size := data.length, etag := etag }
  (putBlob store addr { bytes := data, meta := meta },
   { etag := etag, size := data.length })

structure GetResult where
  stream : List Nat
  size : Nat
  etag : String
  contentType : String
  userMetadata : List (String × String)
  deriving Repr, DecidableEq

/-- `FileSystemProvider.getObject`: `fs.access` on the sanitized path (ENOENT
becomes the thrown `Object not found` error), then the sidecar metadata is
read and the read stream of the blob bytes is returned together with
`metadata.size`, `metadata.etag`, `metadata.contentType`. -/
def fsGetObject (store : Store) (bucketName objectKey : String) :
    Except String GetResult :=
  match lookupBlob store (storeAddr bucketName objectKey) with
  | none => .error ("Object not found: " ++ bucketName ++ "/" ++ objectKey)
  | some b =>
      .ok { stream := b.bytes, size := b.meta.size, etag := b.meta.etag,
            contentType := b.meta.contentType,
            userMetadata := b.meta.userMetadata }

/-- `FileSystemProvider.deleteObject`: unlink the blob (ENOENT swallowed),
unlink the sidecar (all errors swallowed), return `true`.  Deleting an
already-absent object is not an error. -/
def fsDeleteObject (store : Store) (bucketName objectKey : String) :
    Store × Bool :=
  (eraseBlob store (storeAddr bucketName objectKey), true)

/-- The method names defined on the storage provider classes
(`StorageProvider.js`; `FileSystemProvider.js` has the same public surface
plus `copyObject`/`getStorageStats`).  Neither class defines a method named
`delete`, which matters for `uploadObject`'s non-versioned overwrite path. -/
def storageProviderMethodNames : List String :=
  ["putObject", "getObject", "deleteObject", "objectExists",
   "getObjectMetadata", "listObjects", "createBucket", "deleteBucket",
   "copyObject", "getStorageStats", "formatBytes", "cleanup"]

/-- The table-backed columns of the `s3_objects` table (part_006: each
attribute's `field` mapping, plus the timestamp columns Sequelize adds).
The `bucketName` attribute is `DataTypes.VIRTUAL` — it lives only on the
instance (`_bucketName`) and has NO column here, so a `where` clause naming
it makes the generated SQL reference a nonexistent column and the query
throws a database error. -/
def s3ObjectTableColumns : List String :=
  ["id", "key", "bucket_id", "version_id", "is_latest", "size",
   "content_type", "etag", "storage_class", "metadata", "tags", "acl",
   "storage_path", "checksum_md5", "checksum_sha256", "owner_id",
   "upload_id", "is_multipart", "is_complete", "expires_at",
   "created_at", "updated_at"]

/-! ## Authorization Gateway (iamService.js / iamClient) -/

/-- The decision object returned by the permission oracle
(`iamClient.checkPermission` result shape). -/
structure Decision where
  allowed : Bool
  reason : String
  policy : Option String
  deriving Repr, DecidableEq

/-- Denial reasons produced by the oracle itself when it answers (part_010,
`iamClient.checkPermission`): an explicit policy deny carries
`Permission denied by policy`; no matching policy leaves the initial
`No matching policy found`. -/
def iamClientDenyReasons : List String :=
  ["Permission denied by policy", "No matching policy found"]

/-- `IAMService.checkPermission` (iamService.js lines 69-85): pass the client
result through; if the client call throws (transport error or timeout), catch
it and return a fail-closed denial whose reason is `IAM service error`.  The
argument is the outcome of the network call to the oracle. -/
def iamCheckPermission (outcome : Except String Decision) : Decision :=
  match outcome with
  | .ok d => d
  | .error _ =>
      { allowed := false, reason := "IAM service error", policy := none }

/-! ## Metadata Catalog records (part_006 S3Object model, part_007 Bucket) -/

structure BucketRec where
  id : Nat
  name : String
  versioningEnabled : Bool
  ownerId : String
  deriving Repr, DecidableEq

structure Grantee where
  granteeId : String
  displayName : String
  granteeType : String
  deriving Repr, DecidableEq

structure Grant where
  grantee : Grantee
  permission : String
  deriving Repr, DecidableEq

structure Acl where
  ownerId : String
  ownerDisplayName : String
  grants : List Grant
  deriving Repr, DecidableEq

/-- One `S3Object` row.  `versionId` and `id` are UUID columns with a
`UUIDV4` default, modelled by `Nat` values drawn from the state counter.
`bucketName` is the `VIRTUAL` attribute set when the service passes
`bucketName` into `S3Object.create` (it lives on the instance, not in the
table). -/
structure ObjRec where
  id : Nat
  bucketId : Nat
  bucketName : String
  key : String
  versionId : Nat
  isLatest : Bool
  size : Nat
  etag : String
  contentType : String
  metadata : List (String × String)
  tags : List (String × String)
  acl : Option Acl
  ownerId : String
  storagePath : String
  deriving Repr, DecidableEq

/-- An `AccessLog` row as written by `ObjectService._logAccess`. -/
structure LogEntry where
  userId : String
  action : String
  resource : String
  status : String
  deriving Repr, DecidableEq

/-- Catalog plus physical store plus the UUID source.  `nextId` models the
UUID generator: each freshly created row consumes it. -/
structure SysState where
  buckets : List BucketRec
  objects : List ObjRec
  store : Store
  nextId : Nat
  logs : List LogEntry
  deriving Repr, DecidableEq

/-! ## Errors (AppError and raw JS errors) -/

/-- `AppError(message, statusCode, code)` from the error-handler middleware. -/
structure AppError where
  message : String
  statusCode : Nat
  code : String
  deriving Repr, DecidableEq

/-- What a service method can throw: a structured `AppError`, a JS
`TypeError` (e.g. calling a method that does not exist), or a plain
`Error` (e.g. the storage provider's `Object not found`).  The error-handler
middleware maps `AppError` to its `statusCode` and everything else to 500. -/
inductive SvcErr where
  | app (e : AppError)
  | typeError (message : String)
  | jsError (message : String)
  deriving Repr, DecidableEq

def appBucketNotFound : AppError :=
  { message := "Bucket not found", statusCode := 404, code := "BUCKET_NOT_FOUND" }

def appAccessDenied : AppError :=
  { message := "Access denied", statusCode := 403, code := "ACCESS_DENIED" }

def appObjectNotFound : AppError :=
  { message := "Object not found", statusCode := 404, code := "OBJECT_NOT_FOUND" }

/-- HTTP status the error handler reports for a thrown service error. -/
def SvcErr.status : SvcErr → Nat
  | .app e => e.statusCode
  | .typeError _ => 500
  | .jsError _ => 500

/-! ## ObjectService (part_011) -/

/-- `_logAccess`: appends an `AccessLog` row; its own failures are swallowed. -/
def logAccess (st : SysState) (userId action bucketName objectKey status : String) :
    SysState :=
  { st with logs := st.logs ++
      [{ userId := userId, action := action,
         resource := bucketName ++ "/" ++ objectKey, status := status }] }

/-- `ObjectService.uploadObject` (part_011 lines 20-96).

Control flow, in source order:
1. `Bucket.findOne({where: {name}})`; absent → `AppError 404 BUCKET_NOT_FOUND`.
2. permission check (the oracle decision is the `perm` argument); not allowed
   → `AppError 403 ACCESS_DENIED` (no access-log write on this path).
3. `storageProvider.putObject(bucketName, key, data, {contentType,
   userMetadata})` — the physical write happens before any catalog write.
4. versioning:
   - enabled: `S3Object.update({isLatest: false}, {where: {bucketId, key}})`;
   - disabled: `S3Object.findOne({where: {bucketName, key}})`.  The where
     clause names the `bucketName` attribute, which the S3Object model
     declares `DataTypes.VIRTUAL`: it has no table column (see
     `s3ObjectTableColumns`), so the generated SQL references a nonexistent
     column and the query itself throws a database error — with or without a
     prior row for the key.  The guards below keep the source's semantics as
     nested dead code: only if `bucketName` were a real column would the
     lookup run, and even then the `some` branch's
     `storageProvider.delete(existingObject.storageKey)` calls a method no
     provider defines (see `storageProviderMethodNames`) and would raise
     `TypeError`.
5. `S3Object.create` with `isLatest: true` and a fresh `versionId`
   (UUIDV4 default), then `_logAccess PUT SUCCESS` — unreachable from the
   versioning-disabled branch.

The function returns the state as it is at the moment of a throw (effects
already performed — in particular the physical write of step 3 — persist). -/
def uploadObject (hash : List Nat → String) (st : SysState)
    (bucketName key : String) (data : List Nat)
    (contentType : Option String) (userMetadata : List (String × String))
    (userId : String) (perm : Decision) :
    SysState × Except SvcErr ObjRec :=
  match st.buckets.find? (fun b => b.name == bucketName) with
  | none => (st, .error (.app appBucketNotFound))
  | some bucket =>
    if !perm.allowed then
      (st, .error (.app appAccessDenied))
    else
      let ct := contentType.getD "application/octet-stream"
      let put := fsPutObject hash st.store bucketName key data ct userMetadata
      let st1 : SysState := { st with store := put.1 }
      let etag := put.2.etag
      let afterVersioning : SysState × Except SvcErr Unit :=
        if bucket.versioningEnabled then
          ({ st1 with objects := st1.objects.map (fun o =>
              if o.bucketId == bucket.id && o.key == key then
                { o with isLatest := false } else o) }, .ok ())
        else
          if "bucketName" ∈ s3ObjectTableColumns then
            -- dead code: how the lookup would behave were bucketName a column
            match st1.objects.find? (fun o =>
                o.bucketName == bucketName && o.key == key) with
            | some existing =>
                if "delete" ∈ storageProviderMethodNames then
                  -- doubly dead: the intended overwrite path
                  ({ st1 with
                      store := eraseBlob st1.store
                        (storeAddr existing.bucketName existing.key),
                      objects := st1.objects.filter (fun o =>
                        !(o.id == existing.id)) },
                   .ok ())
                else
                  (st1, .error (.typeError
                    "storageProvider.delete is not a function"))
            | none => (st1, .ok ())
          else
            (st1, .error (.jsError
              "column S3Object.bucketName does not exist"))
      match afterVersioning with
      | (st2, .error e) => (st2, .error e)
      | (st2, .ok _) =>
          let row : ObjRec :=
            { id := st2.nextId, bucketId := bucket.id, bucketName := bucketName,
              key := key, versionId := st2.nextId, isLatest := true,
              size := data.length, etag := etag, contentType := ct,
              metadata := userMetadata, tags := [], acl := none,
              ownerId := userId, storagePath := bucketName ++ "/" ++ key }
          let st3 : SysState :=
            { st2 with objects := st2.objects ++ [row], nextId := st2.nextId + 1 }
          (logAccess st3 userId "PUT" bucketName key "SUCCESS", .ok row)

/-- The version-resolution predicate shared by download / HEAD / delete
(part_011): an explicit `versionId` selects that version, otherwise the row
with `isLatest = true` is targeted. -/
def versionCond (bucket : BucketRec) (key : String) (versionId : Option Nat)
    (o : ObjRec) : Bool :=
  o.bucketId == bucket.id && o.key == key &&
    (match versionId with
     | some v => o.versionId == v
     | none => o.isLatest)

structure DownloadResult where
  stream : List Nat
  contentType : String
  size : Nat
  etag : String
  userMetadata : List (String × String)
  deriving Repr, DecidableEq

/-- `ObjectService.downloadObject` (part_011 lines 106-166): resolve bucket
(404), check permission (denied → log `DENIED`, throw 403), resolve the row by
explicit `versionId` or `isLatest: true` (none → log `NOT_FOUND`, throw 404),
then fetch the bytes with `storageProvider.getObject(bucketName, key)` — the
physical fetch is addressed by (bucket, key) only, never by version id.  A
storage miss propagates as a plain JS `Error`.  The metadata fields fall back
from the sidecar to the catalog row under JS falsiness (`||`). -/
def downloadObject (st : SysState) (bucketName key userId : String)
    (versionId : Option Nat) (perm : Decision) :
    SysState × Except SvcErr DownloadResult :=
  match st.buckets.find? (fun b => b.name == bucketName) with
  | none => (st, .error (.app appBucketNotFound))
  | some bucket =>
    if !perm.allowed then
      (logAccess st userId "GET" bucketName key "DENIED",
       .error (.app appAccessDenied))
    else
      match st.objects.find? (versionCond bucket key versionId) with
      | none =>
          (logAccess st userId "GET" bucketName key "NOT_FOUND",
           .error (.app appObjectNotFound))
      | some o =>
          match fsGetObject st.store bucketName key with
          | .error m => (st, .error (.jsError m))
          | .ok g =>
              (logAccess st userId "GET" bucketName key "SUCCESS",
               .ok { stream := g.stream,
                     contentType :=
                       if g.contentType == "" then o.contentType else g.contentType,
                     size := if g.size == 0 then o.size else g.size,
                     etag := if g.etag == "" then o.etag else g.etag,
                     userMetadata := g.userMetadata })

/-- `ObjectService.deleteObject` (part_011 lines 292-346): resolve bucket
(404), check permission (denied → log, 403), `findAll` the target rows
(explicit version or latest); an empty result logs `NOT_FOUND` and throws
404.  Otherwise, for each row: `storageProvider.deleteObject(bucketName,
key)` (always the same (bucket, key) address) then `obj.destroy()`. -/
def deleteObject (st : SysState) (bucketName key userId : String)
    (versionId : Option Nat) (perm : Decision) :
    SysState × Except SvcErr Unit :=
  match st.buckets.find? (fun b => b.name == bucketName) with
  | none => (st, .error (.app appBucketNotFound))
  | some bucket =>
    if !perm.allowed then
      (logAccess st userId "DELETE" bucketName key "DENIED",
       .error (.app appAccessDenied))
    else
      let targets := st.objects.filter (versionCond bucket key versionId)
      if targets.isEmpty then
        (logAccess st userId "DELETE" bucketName key "NOT_FOUND",
         .error (.app appObjectNotFound))
      else
        let st1 : SysState :=
          { st with
              store := eraseBlob st.store (storeAddr bucketName key),
              objects := st.objects.filter (fun o =>
                !(versionCond bucket key versionId o)) }
        (logAccess st1 userId "DELETE" bucketName key "SUCCESS", .ok ())

/-! ### listObjects (part_011 lines 175-282) -/

structure ListOpts where
  pfx : String
  delim : String
  marker : String
  maxKeys : Nat
  versions : Bool
  deriving Repr, DecidableEq

/-- The SQL `where` built by `listObjects`: `bucketId`; `isLatest: true`
unless listing versions; `key LIKE prefix%` when a non-empty prefix is given;
`key > marker` when a non-empty marker is given (the marker condition is
spread into the same `key` clause, so both apply). -/
def listWhere (bucket : BucketRec) (opts : ListOpts) (o : ObjRec) : Bool :=
  o.bucketId == bucket.id &&
  (opts.versions || o.isLatest) &&
  (opts.pfx == "" || o.key.startsWith opts.pfx) &&
  (opts.marker == "" || decide (opts.marker < o.key))

/-- `order: [[key, ASC]]` — insertion sort by key, stable. -/
def insertByKey (o : ObjRec) : List ObjRec → List ObjRec
  | [] => [o]
  | x :: xs => if o.key ≤ x.key then o :: x :: xs else x :: insertByKey o xs

def sortByKey : List ObjRec → List ObjRec
  | [] => []
  | x :: xs => insertByKey x (sortByKey xs)

/-- The rows the catalog query returns: filtered, ordered by key, limited to
`Math.min(maxKeys, 1000)`. -/
def listSelectedRows (st : SysState) (bucket : BucketRec) (opts : ListOpts) :
    List ObjRec :=
  (sortByKey (st.objects.filter (listWhere bucket opts))).take
    (min opts.maxKeys 1000)

/-- Index of the first occurrence of the delimiter string inside a key
suffix (`String.indexOf`), or `none`. -/
def firstIndexOfFrom (delim : List Char) : List Char → Option Nat
  | [] => if delim = [] then some 0 else none
  | c :: rest =>
      if delim.isPrefixOf (c :: rest) then some 0
      else (firstIndexOfFrom delim rest).map (· + 1)

/-- `keyAfterPrefix.indexOf(delimiter)` over the part of the key after the
requested prefix. -/
def delimIndex (opts : ListOpts) (key : String) : Option Nat :=
  firstIndexOfFrom opts.delim.data (key.data.drop opts.pfx.length)

/-- With a delimiter, rows whose key contains the delimiter after the prefix
are folded away from `contents` (they become common prefixes). -/
def listContents (opts : ListOpts) (rows : List ObjRec) : List ObjRec :=
  if opts.delim == "" then rows
  else rows.filter (fun o => (delimIndex opts o.key).isNone)

/-- Insertion-ordered deduplication, as a JS `Map` keyed by the prefix. -/
def dedupKeepFirst (l : List String) : List String :=
  l.foldl (fun acc s => if s ∈ acc then acc else acc ++ [s]) []

/-- The common prefix an object folds into:
`prefix + keyAfterPrefix.substring(0, delimiterIndex + 1)`. -/
def listCommonPrefixes (opts : ListOpts) (rows : List ObjRec) : List String :=
  if opts.delim == "" then []
  else dedupKeepFirst (rows.filterMap (fun o =>
    (delimIndex opts o.key).map (fun i =>
      opts.pfx ++ ⟨(o.key.data.drop opts.pfx.length).take (i + 1)⟩)))

structure ContentEntry where
  key : String
  size : Nat
  etag : String
  deriving Repr, DecidableEq

structure ListResult where
  contents : List ContentEntry
  commonPrefixes : List String
  isTruncated : Bool
  nextMarker : Option String
  deriving Repr, DecidableEq

/-- `ObjectService.listObjects`: resolve bucket (404), check `read:bucket`
permission (403), run the limited catalog query, apply the delimiter logic,
and report `isTruncated := objects.length === parseInt(maxKeys)` and
`nextMarker := objects.length > 0 ? objects[objects.length - 1].key : null`
(`objects` being the fetched rows, before delimiter folding). -/
def listObjects (st : SysState) (bucketName userId : String) (opts : ListOpts)
    (perm : Decision) : SysState × Except SvcErr ListResult :=
  match st.buckets.find? (fun b => b.name == bucketName) with
  | none => (st, .error (.app appBucketNotFound))
  | some bucket =>
    if !perm.allowed then
      (st, .error (.app appAccessDenied))
    else
      let rows := listSelectedRows st bucket opts
      (st, .ok {
        contents := (listContents opts rows).map (fun o =>
          { key := o.key, size := o.size, etag := o.etag }),
        commonPrefixes := listCommonPrefixes opts rows,
        isTruncated := rows.length == opts.maxKeys,
        nextMarker := (rows.getLast?).map (fun o => o.key) })

/-! ### ACL operations (part_011 lines 546-660) -/

/-- The default ACL `getObjectAcl` synthesizes when the row stores none:
owner and sole FULL_CONTROL grantee are both built from `userId` — the id of
the *requesting* user — displayed as `Object Owner`. -/
def defaultAcl (userId : String) : Acl :=
  { ownerId := userId, ownerDisplayName := "Object Owner",
    grants := [{ grantee := { granteeId := userId,
                              displayName := "Object Owner",
                              granteeType := "CanonicalUser" },
                 permission := "FULL_CONTROL" }] }

/-- `ObjectService.getObjectAcl`: resolve bucket (404), check `read`
permission (403), find the latest row (404), log, and return the stored ACL
or, when absent, `defaultAcl userId`. -/
def getObjectAcl (st : SysState) (bucketName key userId : String)
    (perm : Decision) : SysState × Except SvcErr Acl :=
  match st.buckets.find? (fun b => b.name == bucketName) with
  | none => (st, .error (.app appBucketNotFound))
  | some bucket =>
    if !perm.allowed then
      (st, .error (.app appAccessDenied))
    else
      match st.objects.find? (fun o =>
          o.bucketId == bucket.id && o.key == key && o.isLatest) with
      | none => (st, .error (.app appObjectNotFound))
      | some o =>
          (logAccess st userId "GetObjectACL" bucketName key "success",
           .ok (o.acl.getD (defaultAcl userId)))

/-- `ObjectService.updateObjectAcl`: resolve bucket (404), check `write`
permission (403), find the latest row (404), then build a brand-new ACL whose
`grants` array is exactly the request's `grants` (no merge with whatever was
stored) and write it onto the row. -/
def updateObjectAcl (st : SysState) (bucketName key : String)
    (grants : List Grant) (userId : String) (perm : Decision) :
    SysState × Except SvcErr Acl :=
  match st.buckets.find? (fun b => b.name == bucketName) with
  | none => (st, .error (.app appBucketNotFound))
  | some bucket =>
    if !perm.allowed then
      (st, .error (.app appAccessDenied))
    else
      match st.objects.find? (fun o =>
          o.bucketId == bucket.id && o.key == key && o.isLatest) with
      | none => (st, .error (.app appObjectNotFound))
      | some o =>
          let acl : Acl :=
            { ownerId := userId, ownerDisplayName := "Object Owner",
              grants := grants }
          let st1 : SysState :=
            { st with objects := st.objects.map (fun x =>
                if x.id == o.id then { x with acl := some acl } else x) }
          (logAccess st1 userId "PutObjectACL" bucketName key "success",
           .ok acl)

/-! ### Copy (part_011 lines 357-441 and objectController.js lines 121-172) -/

def appSourceBucketNotFound : AppError :=
  { message := "Source bucket not found", statusCode := 404,
    code := "SOURCE_BUCKET_NOT_FOUND" }

def appDestBucketNotFound : AppError :=
  { message := "Destination bucket not found", statusCode := 404,
    code := "DEST_BUCKET_NOT_FOUND" }

def appSourceAccessDenied : AppError :=
  { message := "Access denied to source object", statusCode := 403,
    code := "ACCESS_DENIED" }

def appDestAccessDenied : AppError :=
  { message := "Access denied to destination", statusCode := 403,
    code := "ACCESS_DENIED" }

def appSourceObjectNotFound : AppError :=
  { message := "Source object not found", statusCode := 404,
    code := "SOURCE_OBJECT_NOT_FOUND" }

/-- `ObjectService.copyObject`: resolve both buckets (404s), check read
permission on the source and write permission on the destination (403s), find
the latest source row (404), read the source bytes fully
(`storageProvider.getObject` + buffering the stream), and perform a regular
`uploadObject` to the destination with the source row's content-type and user
metadata.  `permUpload` is the decision of the `write` check that
`uploadObject` itself performs (a separate oracle call in the source). -/
def svcCopyObject (hash : List Nat → String) (st : SysState)
    (sourceBucket sourceKey destBucket destKey userId : String)
    (permRead permWrite permUpload : Decision) :
    SysState × Except SvcErr ObjRec :=
  match st.buckets.find? (fun b => b.name == sourceBucket) with
  | none => (st, .error (.app appSourceBucketNotFound))
  | some sourceBucketObj =>
    match st.buckets.find? (fun b => b.name == destBucket) with
    | none => (st, .error (.app appDestBucketNotFound))
    | some _ =>
      if !permRead.allowed then
        (st, .error (.app appSourceAccessDenied))
      else if !permWrite.allowed then
        (st, .error (.app appDestAccessDenied))
      else
        match st.objects.find? (fun o =>
            o.bucketId == sourceBucketObj.id && o.key == sourceKey &&
              o.isLatest) with
        | none => (st, .error (.app appSourceObjectNotFound))
        | some sourceObj =>
          match fsGetObject st.store sourceBucket sourceKey with
          | .error m => (st, .error (.jsError m))
          | .ok g =>
              uploadObject hash st destBucket destKey g.stream
                (some sourceObj.contentType) sourceObj.metadata userId
                permUpload

/-- The controller's parse of `copySource` with
`copySource.match(/^\/([^\/]+)\/(.+)$/)`: a leading `/`, then a non-empty
run without `/` (greedy — backtracking can never shorten it into a match),
then `/`, then a non-empty remainder in which `.` forbids the JS line
terminators (LF, CR, U+2028, U+2029). -/
def parseCopySource (s : String) : Option (String × String) :=
  match s.data with
  | '/' :: rest =>
      let b := rest.takeWhile (fun c => !(c == '/'))
      match rest.dropWhile (fun c => !(c == '/')) with
      | '/' :: k =>
          if !b.isEmpty && !k.isEmpty && k.all (fun c =>
              !(c == '\n' || c == '\r' || c == '\u2028' || c == '\u2029')) then
            some (⟨b⟩, ⟨k⟩)
          else none
      | _ => none
  | _ => none

inductive CtrlResult where
  | badRequest (message : String)
  | created (obj : ObjRec)
  | svcError (e : SvcErr)
  deriving Repr, DecidableEq

/-- HTTP status line of a controller outcome (`res.status(400)`,
`res.status(201)`, or the error handler applied to the thrown error). -/
def ctrlStatus : CtrlResult → Nat
  | .badRequest _ => 400
  | .created _ => 201
  | .svcError e => e.status

/-- `objectController.copyObject`: 400 when `copySource` is missing or
malformed; 400 `Source and destination cannot be the same` when the parsed
source equals the destination (checked before the service ever runs, so no
object version can be created on that path); otherwise delegate to
`ObjectService.copyObject` and answer 201 with the new row. -/
def copyObjectController (hash : List Nat → String) (st : SysState)
    (bucketName key : String) (copySource : Option String) (userId : String)
    (permRead permWrite permUpload : Decision) : SysState × CtrlResult :=
  match copySource with
  | none => (st, .badRequest "Missing required parameter: copySource")
  | some cs =>
    match parseCopySource cs with
    | none =>
        (st, .badRequest "Invalid copy source format. Should be /sourceBucket/sourceKey")
    | some (sourceBucket, sourceKey) =>
      if sourceBucket == bucketName && sourceKey == key then
        (st, .badRequest "Source and destination cannot be the same")
      else
        match svcCopyObject hash st sourceBucket sourceKey bucketName key
            userId permRead permWrite permUpload with
        | (st1, .ok obj) => (st1, .created obj)
        | (st1, .error e) => (st1, .svcError e)

/-! ## Bucket name validation (part_008 `validateBucketName`) -/

def isLowerAlnum (c : Char) : Bool :=
  ('a' ≤ c && c ≤ 'z') || ('0' ≤ c && c ≤ '9')

/-- The tail of the regex `^[a-z0-9][a-z0-9\-]*[a-z0-9]$`: middle characters
from `[a-z0-9-]`, final character from `[a-z0-9]`. -/
def bucketRegexTail : List Char → Bool
  | [] => false
  | [c] => isLowerAlnum c
  | c :: rest => (isLowerAlnum c || c == '-') && bucketRegexTail rest

/-- The full test of `^[a-z0-9][a-z0-9\-]*[a-z0-9]$` (at least two
characters; note the class contains no dot). -/
def bucketRegexTest : List Char → Bool
  | [] => false
  | c :: rest => isLowerAlnum c && bucketRegexTail rest

/-- `name.includes(ab)` for a two-character needle. -/
def containsSub2 (a b : Char) : List Char → Bool
  | x :: y :: rest => (x == a && y == b) || containsSub2 a b (y :: rest)
  | _ => false

/-- Split on a separator character; `splitOnChar sep s` has one group per
separator-delimited segment (including empty ones). -/
def splitOnChar (sep : Char) : List Char → List (List Char)
  | [] => [[]]
  | c :: rest =>
      if c == sep then [] :: splitOnChar sep rest
      else
        match splitOnChar sep rest with
        | g :: gs => (c :: g) :: gs
        | [] => [[c]]

def isDigitChar (c : Char) : Bool := '0' ≤ c && c ≤ '9'

/-- The test of `/^\d{1,3}\.\d{1,3}\.\d{1,3}\.\d{1,3}$/`: exactly four
dot-separated groups of one to three digits. -/
def ipShaped (s : List Char) : Bool :=
  match splitOnChar '.' s with
  | [a, b, c, d] =>
      [a, b, c, d].all (fun g =>
        g.all isDigitChar && decide (1 ≤ g.length) && decide (g.length ≤ 3))
  | _ => false

/-- `validateBucketName` from part_008, checks in source order: falsy or
length outside 3..63; the character-shape regex; consecutive periods or
dashes; IP-address shape. -/
def validateBucketName (name : String) : Bool :=
  let s := name.data
  if s.length < 3 || 63 < s.length then false
  else if !bucketRegexTest s then false
  else if containsSub2 '.' '.' s || containsSub2 '-' '-' s then false
  else if ipShaped s then false
  else true

/-- Modelled from the spec: the claim's description of a valid bucket-name
alphabet — lowercase alphanumerics and hyphen, first and last character
alphanumeric, no consecutive dots and no consecutive dashes.  Used only to
state the acceptance half of the boundary claim against
`validateBucketName`. -/
def specCharsetName (s : List Char) : Bool :=
  s.all (fun c => isLowerAlnum c || c == '-') &&
  (match s.head? with | some c => isLowerAlnum c | none => false) &&
  (match s.getLast? with | some c => isLowerAlnum c | none => false) &&
  !containsSub2 '.' '.' s && !containsSub2 '-' '-' s

/-! ## Concrete fixtures used by witnesses and counterexamples -/

def permAllow : Decision := { allowed := true, reason := "", policy := none }

def demoBucketOff : BucketRec :=
  { id := 0, name := "b", versioningEnabled := false, ownerId := "u" }

def demoBucketOn : BucketRec :=
  { id := 0, name := "vb", versioningEnabled := true, ownerId := "u" }

def demoRow : ObjRec :=
  { id := 1, bucketId := 0, bucketName := "b", key := "k", versionId := 1,
    isLatest := true, size := 1, etag := "e", contentType := "t",
    metadata := [], tags := [], acl := none, ownerId := "u",
    storagePath := "b/k" }

def demoStOffEmpty : SysState :=
  { buckets := [demoBucketOff], objects := [], store := [], nextId := 0,
    logs := [] }

def demoStOff : SysState :=
  { buckets := [demoBucketOff], objects := [demoRow], store := [],
    nextId := 2, logs := [] }

def demoRowV : ObjRec :=
  { demoRow with bucketName := "vb", storagePath := "vb/k" }

def demoStOn : SysState :=
  { buckets := [demoBucketOn], objects := [demoRowV], store := [],
    nextId := 2, logs := [] }

/-! ## Theorems -/

/-- C3: for every bucket, key, byte payload and metadata, a `putObject`
followed by a `getObject` at the same (bucket, key) returns the stored bytes
byte-for-byte and an etag equal to the content hash (MD5 digest function
`hash`) of the bytes, together with the sidecar size and content-type. -/
theorem put_get_roundtrip (hash : List Nat → String) (store : Store)
    (bucketName objectKey : String) (data : List Nat) (ct : String)
    (um : List (String × String)) :
    fsGetObject (fsPutObject hash store bucketName objectKey data ct um).1
        bucketName objectKey =
      .ok { stream := data, size := data.length, etag := hash data,
            contentType := ct, userMetadata := um } := by
  simp [fsGetObject, fsPutObject, putBlob, lookupBlob]

/-- C4: when the permission-oracle call fails (transport error or timeout),
`IAMService.checkPermission` returns a denial whose reason (`IAM service
error`) is distinct from every oracle-produced deny reason, and an upload
gated on that decision fails with `AccessDenied` 403 — never a 5xx. -/
theorem authz_fail_closed_put_403
    (transportErr : String) (hash : List Nat → String) (st : SysState)
    (bucketName key : String) (data : List Nat) (ct : Option String)
    (um : List (String × String)) (userId : String) (bucket : BucketRec)
    (hb : st.buckets.find? (fun b => b.name == bucketName) = some bucket) :
    (iamCheckPermission (.error transportErr)).allowed = false ∧
    (iamCheckPermission (.error transportErr)).reason = "IAM service error" ∧
    (iamCheckPermission (.error transportErr)).reason ∉ iamClientDenyReasons ∧
    (uploadObject hash st bucketName key data ct um userId
        (iamCheckPermission (.error transportErr))).2 =
      .error (.app appAccessDenied) ∧
    appAccessDenied.statusCode = 403 ∧
    appAccessDenied.code = "ACCESS_DENIED" ∧
    appAccessDenied.statusCode < 500 := by
  refine ⟨rfl, rfl, ?_, ?_, rfl, rfl, by decide⟩
  · show "IAM service error" ∉ iamClientDenyReasons
    decide
  · simp [uploadObject, hb, iamCheckPermission]

/-- C4 witness. -/
theorem authz_fail_closed_put_403_witness :
    (iamCheckPermission (.error "timeout")).allowed = false ∧
    (iamCheckPermission (.error "timeout")).reason = "IAM service error" ∧
    (iamCheckPermission (.error "timeout")).reason ∉ iamClientDenyReasons ∧
    (uploadObject (fun _ => "h")
        { buckets := [{ id := 0, name := "b", versioningEnabled := false,
                        ownerId := "u" }],
          objects := [], store := [], nextId := 0, logs := [] }
        "b" "k" [1, 2] none [] "u"
        (iamCheckPermission (.error "timeout"))).2 =
      .error (.app appAccessDenied) ∧
    appAccessDenied.statusCode = 403 ∧
    appAccessDenied.code = "ACCESS_DENIED" ∧
    appAccessDenied.statusCode < 500 :=
  authz_fail_closed_put_403 "timeout" (fun _ => "h") _ "b" "k" [1, 2] none []
    "u" _ rfl

/-- C6: a copy request whose parsed source bucket/key equal the destination
bucket/key is answered 400 `Source and destination cannot be the same` by the
controller before the service runs, so the state — in particular the set of
object versions — is untouched. -/
theorem copy_same_source_dest_rejected
    (hash : List Nat → String) (st : SysState) (bucketName key cs userId : String)
    (permRead permWrite permUpload : Decision)
    (hparse : parseCopySource cs = some (bucketName, key)) :
    copyObjectController hash st bucketName key (some cs) userId
        permRead permWrite permUpload =
      (st, .badRequest "Source and destination cannot be the same") ∧
    ctrlStatus (copyObjectController hash st bucketName key (some cs) userId
        permRead permWrite permUpload).2 = 400 ∧
    (copyObjectController hash st bucketName key (some cs) userId
        permRead permWrite permUpload).1.objects = st.objects := by
  have h : copyObjectController hash st bucketName key (some cs) userId
      permRead permWrite permUpload =
      (st, .badRequest "Source and destination cannot be the same") := by
    simp [copyObjectController, hparse]
  exact ⟨h, by rw [h]; rfl, by rw [h]⟩

/-- C6 witness. -/
theorem copy_same_source_dest_rejected_witness :
    copyObjectController (fun _ => "h")
        { buckets := [], objects := [], store := [], nextId := 0, logs := [] }
        "my-bucket" "a.txt" (some "/my-bucket/a.txt") "u"
        { allowed := true, reason := "", policy := none }
        { allowed := true, reason := "", policy := none }
        { allowed := true, reason := "", policy := none } =
      ({ buckets := [], objects := [], store := [], nextId := 0, logs := [] },
       .badRequest "Source and destination cannot be the same") :=
  (copy_same_source_dest_rejected (fun _ => "h") _ "my-bucket" "a.txt"
    "/my-bucket/a.txt" "u" _ _ _ (by decide)).1

/-- Erasing an address that holds no blob leaves the filesystem unchanged. -/
theorem eraseBlob_of_absent (store : Store) (addr : String × String)
    (h : lookupBlob store addr = none) : eraseBlob store addr = store := by
  have hfind : store.find? (fun e => e.1 == addr) = none := by
    cases hx : store.find? (fun e => e.1 == addr) with
    | none => rfl
    | some v => rw [lookupBlob, hx] at h; simp at h
  rw [List.find?_eq_none] at hfind
  refine List.filter_eq_self.mpr (fun e he => ?_)
  simpa using hfind e he

/-- C7: a delete whose target version is absent answers 404 `Object not
found`, leaves the catalog, the buckets and the physical store untouched
(only an audit row is appended), so the identical second call answers 404
again; and on the physical side, deleting already-gone bytes is not an error
(`fsDeleteObject` still reports success and changes nothing). -/
theorem delete_absent_idempotent_404
    (st : SysState) (bucketName key userId : String) (versionId : Option Nat)
    (perm : Decision) (bucket : BucketRec)
    (hb : st.buckets.find? (fun b => b.name == bucketName) = some bucket)
    (hp : perm.allowed = true)
    (hnone : st.objects.filter (versionCond bucket key versionId) = []) :
    (deleteObject st bucketName key userId versionId perm).2 =
      .error (.app appObjectNotFound) ∧
    appObjectNotFound.statusCode = 404 ∧
    (deleteObject st bucketName key userId versionId perm).1.objects =
      st.objects ∧
    (deleteObject st bucketName key userId versionId perm).1.buckets =
      st.buckets ∧
    (deleteObject st bucketName key userId versionId perm).1.store =
      st.store ∧
    (deleteObject (deleteObject st bucketName key userId versionId perm).1
        bucketName key userId versionId perm).2 =
      .error (.app appObjectNotFound) ∧
    (∀ (store : Store) (b k : String),
      lookupBlob store (storeAddr b k) = none →
      fsDeleteObject store b k = (store, true)) := by
  have h1 : deleteObject st bucketName key userId versionId perm =
      (logAccess st userId "DELETE" bucketName key "NOT_FOUND",
       .error (.app appObjectNotFound)) := by
    simp [deleteObject, hb, hp, hnone]
  have hobjs : (logAccess st userId "DELETE" bucketName key "NOT_FOUND").objects
      = st.objects := rfl
  have hbks : (logAccess st userId "DELETE" bucketName key "NOT_FOUND").buckets
      = st.buckets := rfl
  refine ⟨by rw [h1], rfl, by rw [h1]; rfl, by rw [h1]; rfl, by rw [h1]; rfl,
    ?_, ?_⟩
  · rw [h1]
    simp [deleteObject, logAccess, hb, hp, hnone]
  · intro store b k h
    rw [fsDeleteObject, eraseBlob_of_absent store _ h]

/-- C7 witness. -/
theorem delete_absent_idempotent_404_witness :
    (deleteObject demoStOffEmpty "b" "k" "u" none permAllow).2 =
      .error (.app appObjectNotFound) :=
  (delete_absent_idempotent_404 demoStOffEmpty "b" "k" "u" none permAllow
    demoBucketOff (by decide) (by decide) (by decide)).1

/-- C1 (code bug evaluation): the non-versioned upload path queries the
catalog by the `VIRTUAL` `bucketName` attribute, which has no table column,
so the query itself throws a database error — for every upload to a
versioning-disabled bucket, with or without a prior row — before the
subsequent `storageProvider.delete` line (itself naming a method no provider
defines) could run.  The claimed delete-blob → destroy-row → insert sequence
never executes and the catalog is left exactly as it was (the new physical
bytes written in step 3 do persist in the store); the thrown error is a 500,
not a structured `AppError`. -/
theorem upload_nonversioned_virtual_column_dbError
    (hash : List Nat → String) (st : SysState) (bucketName key : String)
    (data : List Nat) (ct : Option String) (um : List (String × String))
    (userId : String) (perm : Decision) (bucket : BucketRec)
    (hb : st.buckets.find? (fun b => b.name == bucketName) = some bucket)
    (hv : bucket.versioningEnabled = false)
    (hp : perm.allowed = true) :
    "bucketName" ∉ s3ObjectTableColumns ∧
    "delete" ∉ storageProviderMethodNames ∧
    (uploadObject hash st bucketName key data ct um userId perm).2 =
      .error (.jsError "column S3Object.bucketName does not exist") ∧
    SvcErr.status (.jsError "column S3Object.bucketName does not exist") =
      500 ∧
    (uploadObject hash st bucketName key data ct um userId perm).1.objects =
      st.objects ∧
    (uploadObject hash st bucketName key data ct um userId perm).1.logs =
      st.logs := by
  refine ⟨by decide, by decide, ?_, rfl, ?_, ?_⟩ <;>
    simp [uploadObject, hb, hv, hp, s3ObjectTableColumns]

/-- C1 witness: the bucket of `demoStOff` has versioning disabled and
already holds a row for key `k`; the upload fails with the database error
(it fails the same way without the prior row). -/
theorem upload_nonversioned_virtual_column_dbError_witness :
    (uploadObject (fun _ => "h") demoStOff "b" "k" [1, 2, 3] none [] "u"
        permAllow).2 =
      .error (.jsError "column S3Object.bucketName does not exist") :=
  (upload_nonversioned_virtual_column_dbError (fun _ => "h") demoStOff "b" "k"
    [1, 2, 3] none [] "u" permAllow demoBucketOff (by decide) (by decide)
    (by decide)).2.2.1

/-- C2: uploading into a versioning-enabled bucket marks every existing row
of the (bucket, key) pair not-latest and inserts one new latest row with a
fresh version id, so afterwards exactly one row of the pair is latest and the
new version id collides with no pre-existing one. -/
theorem upload_versioned_unique_latest
    (hash : List Nat → String) (st : SysState) (bucketName key : String)
    (data : List Nat) (ct : Option String) (um : List (String × String))
    (userId : String) (perm : Decision) (bucket : BucketRec)
    (hb : st.buckets.find? (fun b => b.name == bucketName) = some bucket)
    (hv : bucket.versioningEnabled = true)
    (hp : perm.allowed = true)
    (hfresh : ∀ o ∈ st.objects, o.versionId < st.nextId) :
    ∃ row, (uploadObject hash st bucketName key data ct um userId perm).2 =
        .ok row ∧
      row.isLatest = true ∧
      row.versionId = st.nextId ∧
      ((uploadObject hash st bucketName key data ct um userId perm).1.objects.filter
        (fun o => (o.bucketId == bucket.id && o.key == key) && o.isLatest)).length
        = 1 ∧
      (∀ o ∈ st.objects, o.versionId ≠ row.versionId) := by
  refine ⟨{ id := st.nextId, bucketId := bucket.id, bucketName := bucketName,
            key := key, versionId := st.nextId, isLatest := true,
            size := data.length, etag := hash data,
            contentType := ct.getD "application/octet-stream",
            metadata := um, tags := [], acl := none, ownerId := userId,
            storagePath := bucketName ++ "/" ++ key }, ?_, rfl, rfl, ?_, ?_⟩
  · simp [uploadObject, hb, hv, hp, fsPutObject]
  · simp only [uploadObject, hb, hv, hp]
    simp [List.filter_append, logAccess]
    intro a ha h1 h2
    by_cases hc : a.bucketId = bucket.id ∧ a.key = key
    · rw [if_pos hc]
    · rw [if_neg hc] at h1 h2
      exact absurd ⟨h1, h2⟩ hc
  · intro o ho h
    exact absurd h (Nat.ne_of_lt (hfresh o ho))

/-- C2 witness. -/
theorem upload_versioned_unique_latest_witness :
    ∃ row, (uploadObject (fun _ => "h") demoStOn "vb" "k" [7] none [] "u"
        permAllow).2 = .ok row ∧
      row.isLatest = true ∧
      row.versionId = demoStOn.nextId ∧
      ((uploadObject (fun _ => "h") demoStOn "vb" "k" [7] none [] "u"
        permAllow).1.objects.filter
        (fun o => (o.bucketId == demoBucketOn.id && o.key == "k") &&
          o.isLatest)).length = 1 ∧
      (∀ o ∈ demoStOn.objects, o.versionId ≠ row.versionId) :=
  upload_versioned_unique_latest (fun _ => "h") demoStOn "vb" "k" [7] none []
    "u" permAllow demoBucketOn (by decide) (by decide) (by decide) (by decide)

def demoOwnerBucket : BucketRec :=
  { id := 0, name := "b", versioningEnabled := false, ownerId := "owner-1" }

def demoOwnedRow : ObjRec := { demoRow with ownerId := "owner-1" }

def demoStAcl : SysState :=
  { buckets := [demoOwnerBucket], objects := [demoOwnedRow], store := [],
    nextId := 2, logs := [] }

/-- C8 counterexample: the latest row for `(b, k)` stores no ACL and is owned
by `owner-1`, yet `getObjectAcl` called by `reader-2` synthesizes a default
ACL whose sole FULL_CONTROL grantee is `reader-2` — the requesting user, not
the object's owner. -/
theorem getObjectAcl_default_grantee_not_owner :
    (getObjectAcl demoStAcl "b" "k" "reader-2" permAllow).2 =
      .ok (defaultAcl "reader-2") ∧
    (defaultAcl "reader-2").grants.map (fun g => g.grantee.granteeId) =
      ["reader-2"] ∧
    (defaultAcl "reader-2").grants.map (fun g => g.permission) =
      ["FULL_CONTROL"] ∧
    demoStAcl.objects.find? (fun o =>
      o.bucketId == demoOwnerBucket.id && o.key == "k" && o.isLatest) =
        some demoOwnedRow ∧
    demoOwnedRow.ownerId = "owner-1" ∧
    demoOwnedRow.acl = none ∧
    "reader-2" ≠ "owner-1" :=
  ⟨rfl, rfl, rfl, rfl, rfl, rfl, by decide⟩

/-- C8 (amended): when the latest row stores no ACL, `getObjectAcl`
synthesizes a default ACL granting FULL_CONTROL to the *requesting* user
(displayed as `Object Owner`; this coincides with the object's owner only
when the caller is the owner), and `updateObjectAcl` replaces the grants
array wholesale — the stored ACL's grants become exactly the request's
grants, with no merge. -/
theorem acl_default_caller_update_wholesale
    (st : SysState) (bucketName key userId : String) (perm : Decision)
    (bucket : BucketRec) (o : ObjRec) (grants : List Grant)
    (hb : st.buckets.find? (fun b => b.name == bucketName) = some bucket)
    (hp : perm.allowed = true)
    (ho : st.objects.find? (fun x =>
        x.bucketId == bucket.id && x.key == key && x.isLatest) = some o) :
    (o.acl = none →
      (getObjectAcl st bucketName key userId perm).2 =
        .ok (defaultAcl userId)) ∧
    (defaultAcl userId).grants =
      [{ grantee := { granteeId := userId, displayName := "Object Owner",
                      granteeType := "CanonicalUser" },
         permission := "FULL_CONTROL" }] ∧
    (updateObjectAcl st bucketName key grants userId perm).2 =
      .ok { ownerId := userId, ownerDisplayName := "Object Owner",
            grants := grants } ∧
    (∀ x ∈ (updateObjectAcl st bucketName key grants userId perm).1.objects,
      x.id = o.id →
        x.acl = some { ownerId := userId, ownerDisplayName := "Object Owner",
                       grants := grants }) := by
  refine ⟨?_, rfl, ?_, ?_⟩
  · intro hacl
    simp [getObjectAcl, hb, hp, ho, hacl]
  · simp [updateObjectAcl, hb, hp, ho]
  · intro x hx hid
    simp only [updateObjectAcl, hb, hp, ho] at hx
    simp only [Bool.not_true, Bool.false_eq_true, if_false, logAccess] at hx
    rcases List.mem_map.mp hx with ⟨y, _, rfl⟩
    by_cases hy : (y.id == o.id) = true
    · rw [if_pos hy]
    · rw [if_neg hy] at hid ⊢
      exact absurd (by simpa using hid) (by simpa using hy)

/-- C8 (amended) witness. -/
theorem acl_default_caller_update_wholesale_witness :
    ((demoOwnedRow.acl = none →
      (getObjectAcl demoStAcl "b" "k" "reader-2" permAllow).2 =
        .ok (defaultAcl "reader-2")) ∧
    (defaultAcl "reader-2").grants =
      [{ grantee := { granteeId := "reader-2", displayName := "Object Owner",
                      granteeType := "CanonicalUser" },
         permission := "FULL_CONTROL" }] ∧
    (updateObjectAcl demoStAcl "b" "k"
        [{ grantee := { granteeId := "z", displayName := "Z",
                        granteeType := "CanonicalUser" },
           permission := "READ" }] "reader-2" permAllow).2 =
      .ok { ownerId := "reader-2", ownerDisplayName := "Object Owner",
            grants := [{ grantee := { granteeId := "z", displayName := "Z",
                                      granteeType := "CanonicalUser" },
                         permission := "READ" }] } ∧
    (∀ x ∈ (updateObjectAcl demoStAcl "b" "k"
        [{ grantee := { granteeId := "z", displayName := "Z",
                        granteeType := "CanonicalUser" },
           permission := "READ" }] "reader-2" permAllow).1.objects,
      x.id = demoOwnedRow.id →
        x.acl = some { ownerId := "reader-2",
                       ownerDisplayName := "Object Owner",
                       grants := [{ grantee := { granteeId := "z",
                                                 displayName := "Z",
                                                 granteeType := "CanonicalUser" },
                                    permission := "READ" }] })) :=
  acl_default_caller_update_wholesale demoStAcl "b" "k" "reader-2" permAllow
    demoOwnerBucket demoOwnedRow _ (by decide) (by decide) (by decide)

/-- C9: a download resolves its catalog row by the explicit `versionId` when
one is given and by `isLatest = true` otherwise, answers 404 when no such row
exists, and — whichever row was resolved — always returns the bytes stored at
the `(bucket, key)` physical address, i.e. the latest physical bytes even for
an explicit historical version id. -/
theorem download_version_resolution_latest_bytes
    (st : SysState) (bucketName key userId : String) (versionId : Option Nat)
    (perm : Decision) (bucket : BucketRec)
    (hb : st.buckets.find? (fun b => b.name == bucketName) = some bucket)
    (hp : perm.allowed = true) :
    (st.objects.find? (versionCond bucket key versionId) = none →
      (downloadObject st bucketName key userId versionId perm).2 =
        .error (.app appObjectNotFound)) ∧
    appObjectNotFound.statusCode = 404 ∧
    (∀ o blob, st.objects.find? (versionCond bucket key versionId) = some o →
      lookupBlob st.store (storeAddr bucketName key) = some blob →
      ∃ r, (downloadObject st bucketName key userId versionId perm).2 =
          .ok r ∧
        r.stream = blob.bytes) ∧
    (∀ v o, versionCond bucket key (some v) o = true → o.versionId = v) ∧
    (∀ o, versionCond bucket key none o = true → o.isLatest = true) := by
  refine ⟨?_, rfl, ?_, ?_, ?_⟩
  · intro hnone
    simp [downloadObject, hb, hp, hnone]
  · intro o blob ho hblob
    refine ⟨{ stream := blob.bytes,
              contentType := if blob.meta.contentType == "" then o.contentType
                else blob.meta.contentType,
              size := if blob.meta.size == 0 then o.size else blob.meta.size,
              etag := if blob.meta.etag == "" then o.etag else blob.meta.etag,
              userMetadata := blob.meta.userMetadata }, ?_, rfl⟩
    simp [downloadObject, hb, hp, ho, fsGetObject, hblob]
  · intro v o h
    simp only [versionCond, Bool.and_eq_true, beq_iff_eq] at h
    exact h.2
  · intro o h
    simp only [versionCond, Bool.and_eq_true, beq_iff_eq] at h
    exact h.2

def demoOldRowV : ObjRec :=
  { demoRowV with versionId := 1, isLatest := false }

def demoNewRowV : ObjRec :=
  { demoRowV with
      id := 2, versionId := 2, isLatest := true, etag := "e2", size := 2 }

/-- The single physical blob at `(vb, k)` — holding the bytes of the most
recent upload. -/
def demoLatestBlob : Blob :=
  { bytes := [2, 2],
    meta := { contentType := "t", userMetadata := [], size := 2, etag := "e2" } }

def demoStVers : SysState :=
  { buckets := [demoBucketOn], objects := [demoOldRowV, demoNewRowV],
    store := [(storeAddr "vb" "k", demoLatestBlob)], nextId := 3, logs := [] }

/-- C9 witness: requesting the historical version id 1 still returns the
latest physical bytes `[2, 2]`. -/
theorem download_version_resolution_latest_bytes_witness :
    (demoStVers.objects.find? (versionCond demoBucketOn "k" (some 1)) =
        none →
      (downloadObject demoStVers "vb" "k" "u" (some 1) permAllow).2 =
        .error (.app appObjectNotFound)) ∧
    appObjectNotFound.statusCode = 404 ∧
    (∀ o blob,
      demoStVers.objects.find? (versionCond demoBucketOn "k" (some 1)) =
          some o →
      lookupBlob demoStVers.store (storeAddr "vb" "k") = some blob →
      ∃ r, (downloadObject demoStVers "vb" "k" "u" (some 1) permAllow).2 =
          .ok r ∧
        r.stream = blob.bytes) ∧
    (∀ v o, versionCond demoBucketOn "k" (some v) o = true →
      o.versionId = v) ∧
    (∀ o, versionCond demoBucketOn "k" none o = true → o.isLatest = true) :=
  download_version_resolution_latest_bytes demoStVers "vb" "k" "u" (some 1)
    permAllow demoBucketOn (by decide) (by decide)

/-- The catalog page of `listObjects` never exceeds `Math.min(maxKeys,
1000)` rows. -/
theorem listSelectedRows_length_le (st : SysState) (bucket : BucketRec)
    (opts : ListOpts) :
    (listSelectedRows st bucket opts).length ≤ min opts.maxKeys 1000 := by
  simp only [listSelectedRows, List.length_take]
  exact min_le_left _ _

/-- Folding keys into common prefixes can only shrink the contents list. -/
theorem listContents_length_le (opts : ListOpts) (rows : List ObjRec) :
    (listContents opts rows).length ≤ rows.length := by
  unfold listContents
  split
  · exact le_refl _
  · exact List.length_filter_le _ _

/-- C10: `listObjects` returns at most `min(maxKeys, 1000)` entries even when
the caller asks for more; it reports `isTruncated = true` exactly when the
number of fetched rows equals the requested `maxKeys`; and `nextMarker` is
the key of the last fetched row whenever any row was fetched (also when the
page is not truncated). -/
theorem list_page_cap_truncation_marker
    (st : SysState) (bucketName userId : String) (opts : ListOpts)
    (perm : Decision) (bucket : BucketRec)
    (hb : st.buckets.find? (fun b => b.name == bucketName) = some bucket)
    (hp : perm.allowed = true) :
    ∃ r, (listObjects st bucketName userId opts perm).2 = .ok r ∧
      r.contents.length ≤ min opts.maxKeys 1000 ∧
      (r.isTruncated = true ↔
        (listSelectedRows st bucket opts).length = opts.maxKeys) ∧
      r.nextMarker =
        ((listSelectedRows st bucket opts).getLast?).map (fun o => o.key) ∧
      (listSelectedRows st bucket opts ≠ [] →
        ∃ k, r.nextMarker = some k) := by
  refine ⟨{ contents := (listContents opts (listSelectedRows st bucket opts)).map
              (fun o => { key := o.key, size := o.size, etag := o.etag }),
            commonPrefixes :=
              listCommonPrefixes opts (listSelectedRows st bucket opts),
            isTruncated :=
              (listSelectedRows st bucket opts).length == opts.maxKeys,
            nextMarker := ((listSelectedRows st bucket opts).getLast?).map
              (fun o => o.key) },
          by simp [listObjects, hb, hp], ?_, ?_, rfl, ?_⟩
  · calc ((listContents opts (listSelectedRows st bucket opts)).map
          (fun o => ({ key := o.key, size := o.size, etag := o.etag } :
            ContentEntry))).length
        = (listContents opts (listSelectedRows st bucket opts)).length :=
          List.length_map _ _
      _ ≤ (listSelectedRows st bucket opts).length :=
          listContents_length_le _ _
      _ ≤ min opts.maxKeys 1000 := listSelectedRows_length_le _ _ _
  · exact beq_iff_eq
  · intro hne
    exact ⟨((listSelectedRows st bucket opts).getLast hne).key,
      by rw [List.getLast?_eq_getLast _ hne]; rfl⟩

def demoListOpts : ListOpts :=
  { pfx := "", delim := "", marker := "", maxKeys := 1, versions := false }

/-- C10 witness. -/
theorem list_page_cap_truncation_marker_witness :
    ∃ r, (listObjects demoStVers "vb" "u" demoListOpts permAllow).2 =
        .ok r ∧
      r.contents.length ≤ min demoListOpts.maxKeys 1000 ∧
      (r.isTruncated = true ↔
        (listSelectedRows demoStVers demoBucketOn demoListOpts).length =
          demoListOpts.maxKeys) ∧
      r.nextMarker =
        ((listSelectedRows demoStVers demoBucketOn demoListOpts).getLast?).map
          (fun o => o.key) ∧
      (listSelectedRows demoStVers demoBucketOn demoListOpts ≠ [] →
        ∃ k, r.nextMarker = some k) :=
  list_page_cap_truncation_marker demoStVers "vb" "u" demoListOpts permAllow
    demoBucketOn (by decide) (by decide)

/-- Every character accepted by the body of the bucket-name regex is a
lowercase alphanumeric or a hyphen. -/
theorem bucketRegexTail_chars :
    ∀ l, bucketRegexTail l = true →
      ∀ c ∈ l, (isLowerAlnum c || c == '-') = true
  | [], h => by simp [bucketRegexTail] at h
  | [c0], h => by
      intro c hc
      simp only [List.mem_singleton] at hc
      subst hc
      simp only [bucketRegexTail] at h
      simp [h]
  | c0 :: c1 :: rest, h => by
      simp only [bucketRegexTail, Bool.and_eq_true] at h
      intro c hc
      rcases List.mem_cons.mp hc with rfl | hc2
      · exact h.1
      · exact bucketRegexTail_chars (c1 :: rest) h.2 c hc2

/-- Every character of a name accepted by the bucket-name regex is a
lowercase alphanumeric or a hyphen (in particular, never a dot). -/
theorem bucketRegexTest_chars (l : List Char) (h : bucketRegexTest l = true) :
    ∀ c ∈ l, (isLowerAlnum c || c == '-') = true := by
  cases l with
  | nil => simp [bucketRegexTest] at h
  | cons c0 rest =>
      simp only [bucketRegexTest, Bool.and_eq_true] at h
      intro c hc
      rcases List.mem_cons.mp hc with rfl | hc2
      · simp [h.1]
      · exact bucketRegexTail_chars rest h.2 c hc2

/-- A nonempty run of lowercase alphanumerics/hyphens ending in an
alphanumeric passes the body of the bucket-name regex. -/
theorem bucketRegexTail_of :
    ∀ l, l ≠ [] → (∀ c ∈ l, (isLowerAlnum c || c == '-') = true) →
      (∀ c, l.getLast? = some c → isLowerAlnum c = true) →
      bucketRegexTail l = true
  | [], hne, _, _ => absurd rfl hne
  | [c0], _, _, hlast => by
      simp only [bucketRegexTail]
      exact hlast c0 rfl
  | c0 :: c1 :: rest, _, hall, hlast => by
      simp only [bucketRegexTail, Bool.and_eq_true]
      refine ⟨hall c0 (List.mem_cons_self _ _), ?_⟩
      refine bucketRegexTail_of (c1 :: rest) (by simp)
        (fun c hc => hall c (List.mem_cons_of_mem _ hc))
        (fun c hc => hlast c ?_)
      rw [List.getLast?_cons_cons]
      exact hc

/-- A name of length at least two over the valid alphabet, whose first and
last characters are alphanumeric, passes the bucket-name regex. -/
theorem bucketRegexTest_of (l : List Char) (h2 : 2 ≤ l.length)
    (hall : ∀ c ∈ l, (isLowerAlnum c || c == '-') = true)
    (hhead : ∀ c, l.head? = some c → isLowerAlnum c = true)
    (hlast : ∀ c, l.getLast? = some c → isLowerAlnum c = true) :
    bucketRegexTest l = true := by
  cases l with
  | nil => simp at h2
  | cons c0 rest =>
      simp only [bucketRegexTest, Bool.and_eq_true]
      have hrne : rest ≠ [] := by
        cases rest with
        | nil => simp at h2
        | cons _ _ => simp
      refine ⟨hhead c0 rfl, bucketRegexTail_of rest hrne
        (fun c hc => hall c (List.mem_cons_of_mem _ hc))
        (fun c hc => hlast c ?_)⟩
      cases rest with
      | nil => exact absurd rfl hrne
      | cons c1 r2 =>
          rw [List.getLast?_cons_cons]
          exact hc

/-- A string free of the character `a` contains no substring `ab`. -/
theorem containsSub2_eq_false (a b : Char) :
    ∀ l, (∀ c ∈ l, ¬c = a) → containsSub2 a b l = false
  | [], _ => rfl
  | [_], _ => rfl
  | x :: y :: rest, h => by
      have hx : (x == a) = false := by
        simpa using h x (List.mem_cons_self _ _)
      simp only [containsSub2, hx, Bool.false_and, Bool.false_or]
      exact containsSub2_eq_false a b (y :: rest)
        (fun c hc => h c (List.mem_cons_of_mem _ hc))

/-- Splitting a string that does not contain the separator yields a single
group. -/
theorem splitOnChar_of_not_mem (sep : Char) :
    ∀ l, (∀ c ∈ l, ¬c = sep) → splitOnChar sep l = [l]
  | [], _ => rfl
  | c :: rest, h => by
      have hc : (c == sep) = false := by
        simpa using h c (List.mem_cons_self _ _)
      simp only [splitOnChar, hc, Bool.false_eq_true, if_false]
      rw [splitOnChar_of_not_mem sep rest
        (fun x hx => h x (List.mem_cons_of_mem _ hx))]

/-- An IPv4-dotted-quad-shaped name contains a dot. -/
theorem ipShaped_has_dot (l : List Char) (h : ipShaped l = true) : '.' ∈ l := by
  by_contra hmem
  have hs : splitOnChar '.' l = [l] :=
    splitOnChar_of_not_mem '.' l (fun c hc hceq => hmem (hceq ▸ hc))
  rw [ipShaped, hs] at h
  simp at h

/-- A name containing a dot fails the bucket-name regex. -/
theorem bucketRegexTest_false_of_dot (l : List Char) (hdot : '.' ∈ l) :
    bucketRegexTest l = false := by
  cases hb : bucketRegexTest l with
  | false => rfl
  | true => exact absurd (bucketRegexTest_chars l hb '.' hdot) (by decide)

/-- C5: `validateBucketName` rejects every name of length at most 2, accepts
every length-63 name over the valid alphabet (lowercase alphanumerics and
hyphen, alphanumeric first and last character, no consecutive dots or
dashes), rejects every name of length at least 64, and rejects every
IPv4-dotted-quad-shaped name. -/
theorem validateBucketName_boundary :
    (∀ name : String, name.data.length ≤ 2 →
      validateBucketName name = false) ∧
    (∀ name : String, name.data.length = 63 →
      specCharsetName name.data = true → validateBucketName name = true) ∧
    (∀ name : String, 64 ≤ name.data.length →
      validateBucketName name = false) ∧
    (∀ name : String, ipShaped name.data = true →
      validateBucketName name = false) := by
  refine ⟨?_, ?_, ?_, ?_⟩
  · intro name hlen
    have hlen' : name.length ≤ 2 := hlen
    simp only [validateBucketName]
    simp
    intro h1 _ _ _ _
    omega
  · intro name hlen hcs
    simp only [specCharsetName, Bool.and_eq_true, List.all_eq_true,
      Bool.not_eq_true'] at hcs
    obtain ⟨⟨⟨⟨hall, hhead⟩, hlast⟩, hdd⟩, hhh⟩ := hcs
    have hlt : ¬name.data.length < 3 := by omega
    have hgt : ¬63 < name.data.length := by omega
    have hhead' : ∀ c, name.data.head? = some c → isLowerAlnum c = true := by
      intro c hc
      rw [hc] at hhead
      exact hhead
    have hlast' : ∀ c, name.data.getLast? = some c →
        isLowerAlnum c = true := by
      intro c hc
      rw [hc] at hlast
      exact hlast
    have hreg : bucketRegexTest name.data = true :=
      bucketRegexTest_of name.data (by omega) hall hhead' hlast'
    have hnd : '.' ∉ name.data := by
      intro hmem
      exact absurd (hall '.' hmem) (by decide)
    have hip : ipShaped name.data = false := by
      cases hi : ipShaped name.data with
      | false => rfl
      | true => exact absurd (ipShaped_has_dot _ hi) hnd
    have hlen' : name.length = 63 := hlen
    simp [validateBucketName, hreg, hdd, hhh, hip]
    omega
  · intro name hlen
    have hlen' : 64 ≤ name.length := hlen
    simp only [validateBucketName]
    simp
    intro _ h2 _ _ _
    omega
  · intro name hip
    have hreg := bucketRegexTest_false_of_dot _ (ipShaped_has_dot _ hip)
    simp [validateBucketName, hreg]

/-- C5 witness: `ab`, a 63-character run of `a`, a 64-character run of `a`,
and `192.168.1.1`. -/
theorem validateBucketName_boundary_witness :
    validateBucketName "ab" = false ∧
    validateBucketName (String.mk (List.replicate 63 'a')) = true ∧
    validateBucketName (String.mk (List.replicate 64 'a')) = false ∧
    validateBucketName "192.168.1.1" = false :=
  ⟨validateBucketName_boundary.1 "ab" (by decide),
   validateBucketName_boundary.2.1 (String.mk (List.replicate 63 'a'))
     (by decide) (by decide),
   validateBucketName_boundary.2.2.1 (String.mk (List.replicate 64 'a'))
     (by decide),
   validateBucketName_boundary.2.2.2 "192.168.1.1" (by decide)⟩

end S3Spec
